import Mathlib

/-!
Shallow embedding of the pinentry-rofi command interpreter
(`src/lib.rs`, mirrored by `src/pinentry.rs`).

Strings are modelled as `List Char` (`Str`). The Assuan command
interpreter `handle_command` is embedded as a pure function from an
incoming `(action, arg)` pair, the current session state (the rofi
argument map plus the process environment) and the outcome of the
external rofi picker (an input, since the picker is an external
process) to the new state, the list of reply lines written to stdout,
and a control outcome. The line-reading driver `pinentry` is embedded
as `runSession`.
-/

set_option maxRecDepth 4000

abbrev Str := List Char

/-- Convert a string literal to the `List Char` representation. -/
def toL (s : String) : Str := s.data

/-- The carriage-return character. -/
def crChar : Char := Char.ofNat 13

/-- The line-feed character. -/
def nlChar : Char := Char.ofNat 10

/-- The double-quote character. -/
def quotChar : Char := Char.ofNat 34

/-- The apostrophe character. -/
def aposChar : Char := Char.ofNat 39

/-- Boolean test: does `p` occur at the head of `l`?  (Mirrors the
prefix test used by Rust's `str::rsplit_once` substring search.) -/
def leadsWith : Str → Str → Bool
  | [], _ => true
  | _ :: _, [] => false
  | a :: as, b :: bs => a = b && leadsWith as bs

/-- Split on the first occurrence of character `d`
(Rust `str::split_once` with a one-character pattern). -/
def splitOnceChar (d : Char) : Str → Option (Str × Str)
  | [] => none
  | c :: rest =>
    if c = d then some ([], rest)
    else
      match splitOnceChar d rest with
      | some p => some (c :: p.1, p.2)
      | none => none

/-- Split on the last occurrence of the substring `sep`
(Rust `str::rsplit_once`): the recursion prefers an occurrence in the
tail (i.e. a later position) and only then checks the head position. -/
def rsplitOnce (sep : Str) : Str → Option (Str × Str)
  | [] => if sep = [] then some ([], []) else none
  | c :: rest =>
    match rsplitOnce sep rest with
    | some p => some (c :: p.1, p.2)
    | none =>
      if leadsWith sep (c :: rest) then some ([], (c :: rest).drop sep.length)
      else none

/-- Value of an ASCII hex digit (Rust `char::is_ascii_hexdigit` cases). -/
def hexVal (c : Char) : Option Nat :=
  if '0' ≤ c ∧ c ≤ '9' then some (c.toNat - 48)
  else if 'a' ≤ c ∧ c ≤ 'f' then some (c.toNat - 87)
  else if 'A' ≤ c ∧ c ≤ 'F' then some (c.toNat - 55)
  else none

/-- Percent-decoding, `urlencoding::decode` at character granularity:
`%XY` with two hex digits becomes the character with code `0xXY`; a `%`
not followed by two hex digits is kept and scanning resumes at the next
character. -/
def pctDecode : Str → Str
  | [] => []
  | '%' :: a :: b :: rest =>
    match hexVal a, hexVal b with
    | some ha, some hb => Char.ofNat (16 * ha + hb) :: pctDecode rest
    | _, _ => '%' :: pctDecode (a :: b :: rest)
  | c :: rest => c :: pctDecode rest

/-- Rust `str::replace("\n", "\r")` for a one-character pattern. -/
def replaceNlCr (s : Str) : Str :=
  s.map (fun c => if c = nlChar then crChar else c)

/-- Characters that `g_markup_escape_text` turns into numeric character
references (`glib` escapes these control ranges besides the five named
entities). -/
def isGMarkupControl (c : Char) : Bool :=
  decide ((1 ≤ c.toNat ∧ c.toNat ≤ 8) ∨ (11 ≤ c.toNat ∧ c.toNat ≤ 12) ∨
    (14 ≤ c.toNat ∧ c.toNat ≤ 31) ∨ (127 ≤ c.toNat ∧ c.toNat ≤ 132) ∨
    (134 ≤ c.toNat ∧ c.toNat ≤ 159))

/-- Per-character escaping performed by `glib::markup_escape_text`. -/
def markupEscapeChar (c : Char) : Str :=
  if c = '&' then toL "&amp;"
  else if c = '<' then toL "&lt;"
  else if c = '>' then toL "&gt;"
  else if c = aposChar then toL "&apos;"
  else if c = quotChar then toL "&quot;"
  else if isGMarkupControl c then toL "&#x" ++ Nat.toDigits 16 c.toNat ++ [';']
  else [c]

/-- `glib::markup_escape_text` on a whole string. -/
def markup_escape_text (s : Str) : Str := s.flatMap markupEscapeChar

/-- Rust `char::is_whitespace` (the Unicode `White_Space` set). -/
def isRustWhite (c : Char) : Bool :=
  decide ((9 ≤ c.toNat ∧ c.toNat ≤ 13) ∨ c.toNat = 32 ∨ c.toNat = 133 ∨
    c.toNat = 160 ∨ c.toNat = 5760 ∨ (8192 ≤ c.toNat ∧ c.toNat ≤ 8202) ∨
    c.toNat = 8232 ∨ c.toNat = 8233 ∨ c.toNat = 8239 ∨ c.toNat = 8287 ∨
    c.toNat = 12288)

/-- Rust `str::trim_end`: drop trailing whitespace. -/
def trimEnd (s : Str) : Str := (s.reverse.dropWhile isRustWhite).reverse

/-- Rust `arg.replace(":", "")` from the `SETPROMPT` handler. -/
def stripColons (s : Str) : Str := s.filter (fun c => c != ':')

/-- The rofi argument map `HashMap<String, Option<String>>`, modelled as
an association list (one entry per key; iteration order of the Rust
`HashMap` is unspecified, the list order is one representative). -/
abbrev RofiMap := List (Str × Option Str)

/-- Lookup of a key in the argument map. -/
def mapLookup (k : Str) : RofiMap → Option (Option Str)
  | [] => none
  | e :: rest => if e.1 = k then some e.2 else mapLookup k rest

/-- `HashMap::insert`: replace the value if the key exists (keeping its
position in the representative list), append otherwise. -/
def mapInsert (k : Str) (v : Option Str) : RofiMap → RofiMap
  | [] => [(k, v)]
  | e :: rest => if e.1 = k then (k, v) :: rest else e :: mapInsert k v rest

/-- One entry of the flattened rofi invocation: a present value yields
the two tokens `key, value`, an absent value the single token `key`
(the `flat_map` closure in `run_rofi`). -/
def entryTokens : Str × Option Str → List Str
  | (arg, some v) => [arg, v]
  | (arg, none) => [arg]

/-- The flattened invocation argument list built at the top of
`run_rofi`. -/
def flatArgs (m : RofiMap) : List Str := m.flatMap entryTokens

/-- `pat` occurs contiguously (as a block of adjacent tokens) in `l`. -/
def ContigIn (pat l : List Str) : Prop := ∃ u w, l = u ++ (pat ++ w)

/-- The fixed visual separator of the `SETERROR` handler:
a carriage return, 27 asterisks, a carriage return. -/
def errSep : Str := toL "\r***************************\r"

/-- Decidable check that `errSep` occurs in `errSep ++ d` only at
position 0, i.e. that the decomposition `error ++ errSep ++ d` of a
stacked message is unambiguous from the right. -/
def uniqueAnchor (d : Str) : Bool :=
  (List.range (errSep ++ d).length).all
    (fun q => decide (q = 0) || !leadsWith errSep ((errSep ++ d).drop q))

/-- Process environment slice touched by the interpreter: the four
variables written by `OPTION`, plus `DISPLAY`, and the process id and
crate version used by `GETINFO`. -/
structure Env where
  gpg_tty : Option Str
  gpg_term : Option Str
  lc_ctype : Option Str
  lc_messages : Option Str
  display : Option Str
  pid : Str
  version : Str
deriving DecidableEq

/-- Session state: the rofi argument map together with the environment. -/
structure SState where
  rofi_args : RofiMap
  env : Env
deriving DecidableEq

/-- Observable outcome of the external rofi picker process: exit
success with captured stdout, or exit failure with captured stderr. -/
inductive PickerResult where
  | success (stdout : Str)
  | failure (stderr : Str)
deriving DecidableEq

/-- Control outcome of one handled command.  `ok`: `OK` sent, session
continues.  `fatal`: `BYE` sent and an error is returned to the driver
(`Err(UnknownAction)` in `lib.rs`, `process::exit(1)` in
`pinentry.rs`): a non-zero program outcome.  `envErr`: `env::var`
failed with `?` before anything was written: a program-level failure.
`panicked`: a `unwrap` panic (unreachable in well-formed sessions). -/
inductive CmdOut where
  | ok
  | fatal
  | envErr
  | panicked
deriving DecidableEq

/-- The bare success reply line. -/
def okLine : Str := toL "OK"

/-- The terminal failure reply line. -/
def byeLine : Str := toL "BYE"

/-- A data reply line `D <payload>`. -/
def dLine (p : Str) : Str := toL "D " ++ p

/-- The cancellation error line written by `run_rofi` on picker exit
failure. -/
def errCancelLine (e : Str) : Str :=
  toL "ERR 83886179 Operation cancelled <" ++ e ++ toL ">"

/-- The `GETINFO ttyinfo` data line: three space-joined fields. -/
def ttyinfoLine (t y d : Str) : Str :=
  toL "D " ++ t ++ [' '] ++ y ++ [' '] ++ d

/-- Environment-variable writes of the `OPTION` handler: recognized
names set the corresponding variable, unrecognized names do nothing. -/
def setOptionVar (e : Env) (opt val : Str) : Env :=
  if opt = toL "ttyname" then { e with gpg_tty := some val }
  else if opt = toL "ttytype" then { e with gpg_term := some val }
  else if opt = toL "lc-ctype" then { e with lc_ctype := some val }
  else if opt = toL "lc-messages" then { e with lc_messages := some val }
  else e

/-- `run_rofi`: flatten the argument map, invoke the picker (whose
outcome is the input `pick`), and either emit a `D` line for non-empty
trimmed stdout and report `true`, or emit the cancellation `ERR` line
(falling back to the literal `rofi` for empty stderr, untrimmed
otherwise) and report `false`. -/
def run_rofi (pick : PickerResult) (rofi_args : RofiMap) : List Str × Bool :=
  let _args := flatArgs rofi_args
  match pick with
  | .success stdout =>
    let pw := trimEnd stdout
    (if pw = [] then [] else [dLine pw], true)
  | .failure stderr =>
    let e := if stderr = [] then toL "rofi" else stderr
    ([errCancelLine e], false)

/-- The `SETDESC` text pipeline: percent-decode, map `\n` to `\r`,
markup-escape. -/
def descTransform (s : Str) : Str :=
  markup_escape_text (replaceNlCr (pctDecode s))

/-- Per-character escaping as the spec's words describe it for
`SETDESC`: only the four markup characters `&`, `<`, `>`, `"` are
entity-escaped.  Stated for comparison with `markupEscapeChar`. -/
def specMarkupEscapeChar (c : Char) : Str :=
  if c = '&' then toL "&amp;"
  else if c = '<' then toL "&lt;"
  else if c = '>' then toL "&gt;"
  else if c = quotChar then toL "&quot;"
  else [c]

/-- The `SETDESC` pipeline as the spec's words describe it. -/
def specDescTransform (s : Str) : Str :=
  (replaceNlCr (pctDecode s)).flatMap specMarkupEscapeChar

/-- The command interpreter `handle_command` of `src/lib.rs` (with the
production `is_test = false` path for `GETPIN`; the spawn-failure `?` of
`run_rofi` is outside `PickerResult` and not modelled).  Returns the new
state, the reply lines written, and the control outcome. -/
def handle_command (pick : PickerResult) (s : SState) (action arg : Str) :
    SState × List Str × CmdOut :=
  if action = toL "OPTION" then
    let p := (splitOnceChar '=' arg).getD (arg, [])
    ({ s with env := setOptionVar s.env p.1 p.2 }, [okLine], .ok)
  else if action = toL "GETINFO" ∧ arg = toL "pid" then
    (s, [dLine s.env.pid, okLine], .ok)
  else if action = toL "GETINFO" ∧ arg = toL "ttyinfo" then
    match s.env.gpg_tty with
    | none => (s, [], .envErr)
    | some t =>
      match s.env.display with
      | none => (s, [], .envErr)
      | some d => (s, [ttyinfoLine t (s.env.gpg_term.getD []) d, okLine], .ok)
  else if action = toL "GETINFO" ∧ arg = toL "flavor" then
    (s, [dLine (toL "keyring"), okLine], .ok)
  else if action = toL "GETINFO" ∧ arg = toL "version" then
    (s, [dLine s.env.version, okLine], .ok)
  else if action = toL "SETPROMPT" then
    if (mapLookup (toL "-p") s.rofi_args).isSome then (s, [okLine], .ok)
    else ({ s with rofi_args := mapInsert (toL "-p") (some (stripColons arg)) s.rofi_args },
      [okLine], .ok)
  else if action = toL "SETDESC" then
    ({ s with rofi_args := mapInsert (toL "-mesg") (some (descTransform arg)) s.rofi_args },
      [okLine], .ok)
  else if action = toL "GETPIN" then
    let r := run_rofi pick s.rofi_args
    if r.2 then (s, r.1 ++ [okLine], .ok) else (s, r.1 ++ [byeLine], .fatal)
  else if action = toL "SETERROR" then
    match mapLookup (toL "-mesg") s.rofi_args with
    | none => (s, [okLine], .ok)
    | some none => (s, [], .panicked)
    | some (some v) =>
      let prev := ((rsplitOnce errSep v).getD ([], v)).2
      ({ s with rofi_args := mapInsert (toL "-mesg") (some (arg ++ errSep ++ prev)) s.rofi_args },
        [okLine], .ok)
  else if action = toL "SETKEYINFO" ∨ action = toL "BYE" then
    (s, [okLine], .ok)
  else
    (s, [byeLine], .fatal)

/-- The `(action, arg)` pairs that reach a non-failing arm of the
`handle_command` match (the recognized vocabulary, per argument shape
for `GETINFO`). -/
def RecognizedCmd (action arg : Str) : Prop :=
  action = toL "OPTION" ∨
  (action = toL "GETINFO" ∧ arg = toL "pid") ∨
  (action = toL "GETINFO" ∧ arg = toL "ttyinfo") ∨
  (action = toL "GETINFO" ∧ arg = toL "flavor") ∨
  (action = toL "GETINFO" ∧ arg = toL "version") ∨
  action = toL "SETPROMPT" ∨
  action = toL "SETDESC" ∨
  action = toL "GETPIN" ∨
  action = toL "SETERROR" ∨
  (action = toL "SETKEYINFO" ∨ action = toL "BYE")

instance (action arg : Str) : Decidable (RecognizedCmd action arg) := by
  unfold RecognizedCmd
  infer_instance

/-- The driver's line split: first space separates action from
argument, a line without a space is all action with empty argument. -/
def splitLine (line : Str) : Str × Str :=
  (splitOnceChar ' ' line).getD (line, [])

/-- The line-reading driver of `pinentry`: feed each input line (paired
with the picker outcome an eventual `GETPIN` on that line would
observe) to `handle_command`; stop at the first non-`ok` outcome.  The
final `Bool` is `true` for a clean exit (input exhausted) and `false`
for the non-zero program outcome of a fatal condition. -/
def runSession (s : SState) : List (Str × PickerResult) → SState × List Str × Bool
  | [] => (s, [], true)
  | (line, pick) :: rest =>
    let p := splitLine line
    let r := handle_command pick s p.1 p.2
    match r.2.2 with
    | .ok =>
      let rr := runSession r.1 rest
      (rr.1, r.2.1 ++ rr.2.1, rr.2.2)
    | _ => (r.1, r.2.1, false)

/-- The base argument map built in `pinentry` before any request. -/
def initRofiArgs (display : Str) : RofiMap :=
  [(toL "-dmenu", none), (toL "-display", some display),
   (toL "-input", some (toL "/dev/null")), (toL "-password", none),
   (toL "-disable-history", none), (toL "-l", some (toL "0"))]

/-- A concrete environment for witnesses and counterexamples. -/
def envExample : Env :=
  { gpg_tty := some (toL "/dev/pts/1"), gpg_term := some (toL "tmux-256color"),
    lc_ctype := none, lc_messages := some (toL "C"),
    display := some (toL ":0"), pid := toL "4242", version := toL "0.2.0" }

/-- A concrete session state for witnesses and counterexamples. -/
def sExample : SState := { rofi_args := initRofiArgs (toL ":0"), env := envExample }

/-- A `SETDESC` argument containing an apostrophe. -/
def descCx : Str := 'a' :: aposChar :: ['b']

/-- A session input: a `GETPIN` whose picker exits non-zero with stderr
`"cancelled\n"`, followed by a further request line. -/
def c1Lines : List (Str × PickerResult) :=
  [(toL "GETPIN", PickerResult.failure (toL "cancelled\n")),
   (toL "GETINFO flavor", PickerResult.success [])]

/-- A state whose message key holds the plain description `Y`. -/
def sDescY : SState :=
  { sExample with rofi_args := mapInsert (toL "-mesg") (some (toL "Y")) sExample.rofi_args }

/-- `sExample` after `OPTION ttyname=/dev/pts/3`. -/
def s1Witness : SState :=
  { sExample with env := { envExample with gpg_tty := some (toL "/dev/pts/3") } }

/-- `s1Witness` after `OPTION ttytype=vt100`. -/
def s2Witness : SState :=
  { s1Witness with env := { s1Witness.env with gpg_term := some (toL "vt100") } }


theorem mapLookup_mapInsert_self (k : Str) (v : Option Str) (m : RofiMap) :
    mapLookup k (mapInsert k v m) = some v := by
  induction m with
  | nil => simp [mapInsert, mapLookup]
  | cons e rest ih =>
    by_cases h : e.1 = k
    · simp [mapInsert, h, mapLookup]
    · simp [mapInsert, h, mapLookup, ih]

theorem mapLookup_mapInsert_ne (k k' : Str) (v : Option Str) (m : RofiMap)
    (h : k' ≠ k) : mapLookup k' (mapInsert k v m) = mapLookup k' m := by
  induction m with
  | nil => simp [mapInsert, mapLookup, Ne.symm h]
  | cons e rest ih =>
    by_cases he : e.1 = k
    · have hek' : ¬ e.1 = k' := by rw [he]; exact Ne.symm h
      simp [mapInsert, he, mapLookup, Ne.symm h, hek']
    · by_cases he' : e.1 = k'
      · simp [mapInsert, he, mapLookup, he', h]
      · simp [mapInsert, he, mapLookup, he', ih]

theorem splitOnceChar_append (d : Char) (pre post : Str) (h : ¬ d ∈ pre) :
    splitOnceChar d (pre ++ d :: post) = some (pre, post) := by
  induction pre with
  | nil => simp [splitOnceChar]
  | cons c rest ih =>
    have hc : ¬ c = d := fun hh => h (hh ▸ List.mem_cons_self c rest)
    have hr : ¬ d ∈ rest := fun hh => h (List.mem_cons_of_mem c hh)
    simp [splitOnceChar, hc, ih hr]

theorem leadsWith_append_self (p t : Str) : leadsWith p (p ++ t) = true := by
  induction p with
  | nil => rfl
  | cons c rest ih => simp [leadsWith, ih]

theorem leadsWith_nil_eq_false (p : Str) (h : p ≠ []) : leadsWith p [] = false := by
  cases p with
  | nil => exact absurd rfl h
  | cons c rest => rfl

theorem rsplitOnce_eq_none (sep s : Str)
    (h : ∀ q, leadsWith sep (s.drop q) = false) : rsplitOnce sep s = none := by
  induction s with
  | nil =>
    have h0 := h 0
    have hne : sep ≠ [] := by
      intro he
      subst he
      simp [leadsWith] at h0
    simp [rsplitOnce, hne]
  | cons c rest ih =>
    have hrest : rsplitOnce sep rest = none := ih (fun q => h (q + 1))
    have h0 := h 0
    simp only [List.drop_zero] at h0
    simp [rsplitOnce, hrest, h0]

theorem drop_len_append (l₁ l₂ : Str) (n : Nat) :
    (l₁ ++ l₂).drop (l₁.length + n) = l₂.drop n := by
  induction l₁ with
  | nil => simp
  | cons c rest ih => simp [Nat.succ_add, ih]

theorem rsplitOnce_anchor (sep d : Str) (hsep : sep ≠ [])
    (h : ∀ q, 0 < q → leadsWith sep ((sep ++ d).drop q) = false) :
    rsplitOnce sep (sep ++ d) = some ([], d) := by
  cases hs : sep with
  | nil => exact absurd hs hsep
  | cons a sep' =>
    subst hs
    have hrest : rsplitOnce (a :: sep') (sep' ++ d) = none := by
      apply rsplitOnce_eq_none
      intro q
      have hq := h (q + 1) (Nat.succ_pos q)
      simp only [List.cons_append, List.drop_succ_cons] at hq
      exact hq
    have hlead : leadsWith (a :: sep') ((a :: sep') ++ d) = true :=
      leadsWith_append_self (a :: sep') d
    have hdrop : ((a :: sep') ++ d).drop (a :: sep').length = d := by
      have hd := drop_len_append (a :: sep') d 0
      simp only [Nat.add_zero, List.drop_zero] at hd
      exact hd
    simp only [List.cons_append] at hlead hdrop ⊢
    simp [rsplitOnce, hrest, List.append_eq, hlead, hdrop]

theorem rsplitOnce_stack (sep d E : Str) (hsep : sep ≠ [])
    (h : ∀ q, 0 < q → leadsWith sep ((sep ++ d).drop q) = false) :
    rsplitOnce sep (E ++ (sep ++ d)) = some (E, d) := by
  induction E with
  | nil => simpa using rsplitOnce_anchor sep d hsep h
  | cons c rest ih => simp [rsplitOnce, ih]

theorem errSep_ne_nil : errSep ≠ [] := by decide

theorem uniqueAnchor_drop (d : Str) (h : uniqueAnchor d = true) :
    ∀ q, 0 < q → leadsWith errSep ((errSep ++ d).drop q) = false := by
  intro q hq
  by_cases hlt : q < (errSep ++ d).length
  · have hall := List.all_eq_true.mp h q (List.mem_range.mpr hlt)
    have hq0 : ¬ q = 0 := Nat.pos_iff_ne_zero.mp hq
    simpa [hq0] using hall
  · have hle : (errSep ++ d).length ≤ q := Nat.le_of_not_lt hlt
    rw [List.drop_eq_nil_of_le hle]
    exact leadsWith_nil_eq_false errSep errSep_ne_nil

theorem uniqueAnchor_rsplit_none (d : Str) (h : uniqueAnchor d = true) :
    rsplitOnce errSep d = none := by
  apply rsplitOnce_eq_none
  intro j
  have hpos : 0 < errSep.length + j :=
    Nat.lt_of_lt_of_le (List.length_pos.mpr errSep_ne_nil) (Nat.le_add_right _ _)
  have := uniqueAnchor_drop d h (errSep.length + j) hpos
  rwa [drop_len_append] at this

theorem uniqueAnchor_rsplit_stack (d E : Str) (h : uniqueAnchor d = true) :
    rsplitOnce errSep (E ++ (errSep ++ d)) = some (E, d) :=
  rsplitOnce_stack errSep d E errSep_ne_nil (uniqueAnchor_drop d h)

theorem hc_option (pick : PickerResult) (s : SState) (arg : Str) :
    handle_command pick s (toL "OPTION") arg
      = ({ s with env := (setOptionVar s.env ((splitOnceChar '=' arg).getD (arg, [])).1
            ((splitOnceChar '=' arg).getD (arg, [])).2) }, [okLine], CmdOut.ok) := rfl

theorem hc_getinfo_ttyinfo (pick : PickerResult) (s : SState) :
    handle_command pick s (toL "GETINFO") (toL "ttyinfo")
      = (match s.env.gpg_tty with
         | none => (s, [], CmdOut.envErr)
         | some t =>
           match s.env.display with
           | none => (s, [], CmdOut.envErr)
           | some d => (s, [ttyinfoLine t (s.env.gpg_term.getD []) d, okLine], CmdOut.ok)) := rfl

theorem hc_setprompt (pick : PickerResult) (s : SState) (arg : Str) :
    handle_command pick s (toL "SETPROMPT") arg
      = (if (mapLookup (toL "-p") s.rofi_args).isSome then (s, [okLine], CmdOut.ok)
         else ({ s with rofi_args := mapInsert (toL "-p") (some (stripColons arg)) s.rofi_args },
           [okLine], CmdOut.ok)) := rfl

theorem hc_setdesc (pick : PickerResult) (s : SState) (arg : Str) :
    handle_command pick s (toL "SETDESC") arg
      = ({ s with rofi_args := mapInsert (toL "-mesg") (some (descTransform arg)) s.rofi_args },
         [okLine], CmdOut.ok) := rfl

theorem hc_getpin (pick : PickerResult) (s : SState) (arg : Str) :
    handle_command pick s (toL "GETPIN") arg
      = (if (run_rofi pick s.rofi_args).2 then (s, (run_rofi pick s.rofi_args).1 ++ [okLine], CmdOut.ok)
         else (s, (run_rofi pick s.rofi_args).1 ++ [byeLine], CmdOut.fatal)) := rfl

theorem hc_seterror (pick : PickerResult) (s : SState) (arg : Str) :
    handle_command pick s (toL "SETERROR") arg
      = (match mapLookup (toL "-mesg") s.rofi_args with
         | none => (s, [okLine], CmdOut.ok)
         | some none => (s, [], CmdOut.panicked)
         | some (some v) =>
           ({ s with rofi_args := (mapInsert (toL "-mesg")
                (some (arg ++ errSep ++ ((rsplitOnce errSep v).getD ([], v)).2)) s.rofi_args) },
             [okLine], CmdOut.ok)) := rfl

theorem runSession_step_fatal (pick : PickerResult) (s s' : SState) (line : Str)
    (out : List Str) (rest : List (Str × PickerResult))
    (h : handle_command pick s (splitLine line).1 (splitLine line).2 = (s', out, CmdOut.fatal)) :
    runSession s ((line, pick) :: rest) = (s', out, false) := by
  simp [runSession, h]

theorem runSession_step_ok (pick : PickerResult) (s s' : SState) (line : Str)
    (out : List Str) (rest : List (Str × PickerResult))
    (h : handle_command pick s (splitLine line).1 (splitLine line).2 = (s', out, CmdOut.ok)) :
    runSession s ((line, pick) :: rest)
      = ((runSession s' rest).1, out ++ (runSession s' rest).2.1, (runSession s' rest).2.2) := by
  simp [runSession, h]

/-- C10: when the message key has never been set (no prior `SETDESC`),
`SETERROR` leaves the whole presentation state (and the environment)
unchanged — it does not create the message key — and still replies with
the generic success line. -/
theorem seterror_without_desc_noop (pick : PickerResult) (s : SState) (z : Str)
    (h : mapLookup (toL "-mesg") s.rofi_args = none) :
    handle_command pick s (toL "SETERROR") z = (s, [okLine], CmdOut.ok) := by
  rw [hc_seterror, h]

/-- Witness for `seterror_without_desc_noop` at a concrete state. -/
theorem seterror_without_desc_witness :
    mapLookup (toL "-mesg") sExample.rofi_args = none ∧
    handle_command (PickerResult.success []) sExample (toL "SETERROR") (toL "Bad")
      = (sExample, [okLine], CmdOut.ok) :=
  ⟨by decide, seterror_without_desc_noop (PickerResult.success []) sExample (toL "Bad") (by decide)⟩

/-- C3: in a session whose prompt key is still unset, the first
`SETPROMPT` stores its argument with every `:` removed under the prompt
key, and any later `SETPROMPT` (i.e. any `SETPROMPT` in a state where
the prompt key is set) leaves the whole state unchanged. -/
theorem setprompt_first_write_wins (pick : PickerResult) (s : SState) (a : Str)
    (h : mapLookup (toL "-p") s.rofi_args = none) :
    handle_command pick s (toL "SETPROMPT") a
      = ({ s with rofi_args := mapInsert (toL "-p") (some (stripColons a)) s.rofi_args },
         [okLine], CmdOut.ok)
    ∧ mapLookup (toL "-p") (mapInsert (toL "-p") (some (stripColons a)) s.rofi_args)
        = some (some (stripColons a))
    ∧ ∀ (s' : SState) (b : Str), (mapLookup (toL "-p") s'.rofi_args).isSome →
        handle_command pick s' (toL "SETPROMPT") b = (s', [okLine], CmdOut.ok) := by
  refine ⟨?_, mapLookup_mapInsert_self _ _ _, ?_⟩
  · rw [hc_setprompt]
    simp [h]
  · intro s' b hb
    rw [hc_setprompt]
    simp [hb]

/-- Witness for `setprompt_first_write_wins`: `SETPROMPT a:b:c` stores
`abc`, and a second `SETPROMPT` leaves the state unchanged. -/
theorem setprompt_first_write_wins_witness :
    mapLookup (toL "-p") sExample.rofi_args = none ∧
    handle_command (PickerResult.success []) sExample (toL "SETPROMPT") (toL "a:b:c")
      = ({ sExample with
            rofi_args := mapInsert (toL "-p") (some (toL "abc")) sExample.rofi_args },
         [okLine], CmdOut.ok) := by
  have h := setprompt_first_write_wins (PickerResult.success []) sExample (toL "a:b:c") (by decide)
  refine ⟨by decide, ?_⟩
  have hs : stripColons (toL "a:b:c") = toL "abc" := by decide
  rw [h.1, hs]

/-- C6: `GETINFO ttyinfo` with both the TTY-name and display variables
set emits the single data line of three space-joined fields (TTY-type
replaced by the empty string when unset) and the success line; with the
TTY-name or display variable unset it fails as a program-level failure
(`env::var` error propagated by `?`), emitting nothing. -/
theorem getinfo_ttyinfo_env (pick : PickerResult) (s : SState) (t d : Str) :
    (s.env.gpg_tty = some t → s.env.display = some d →
      handle_command pick s (toL "GETINFO") (toL "ttyinfo")
        = (s, [ttyinfoLine t (s.env.gpg_term.getD []) d, okLine], CmdOut.ok))
    ∧ (s.env.gpg_tty = none →
      handle_command pick s (toL "GETINFO") (toL "ttyinfo") = (s, [], CmdOut.envErr))
    ∧ (s.env.display = none →
      handle_command pick s (toL "GETINFO") (toL "ttyinfo") = (s, [], CmdOut.envErr)) := by
  refine ⟨?_, ?_, ?_⟩
  · intro ht hd
    simp [hc_getinfo_ttyinfo, ht, hd]
  · intro ht
    simp [hc_getinfo_ttyinfo, ht]
  · intro hd
    rw [hc_getinfo_ttyinfo]
    cases ht : s.env.gpg_tty <;> simp [hd]

/-- Witness for `getinfo_ttyinfo_env` at a concrete environment. -/
theorem getinfo_ttyinfo_env_witness :
    sExample.env.gpg_tty = some (toL "/dev/pts/1") ∧
    handle_command (PickerResult.success []) sExample (toL "GETINFO") (toL "ttyinfo")
      = (sExample, [toL "D /dev/pts/1 tmux-256color :0", okLine], CmdOut.ok) := by
  have h := (getinfo_ttyinfo_env (PickerResult.success []) sExample
      (toL "/dev/pts/1") (toL ":0")).1 (by decide) (by decide)
  refine ⟨by decide, ?_⟩
  rw [h]
  decide

/-- C7: `GETPIN` with a successful picker whose stdout trims (of
trailing whitespace) to non-empty text emits the `D` line carrying that
trimmed text followed by the `OK` line; when the trimmed stdout is
empty, it emits only the `OK` line. -/
theorem getpin_success_dline (s : SState) (stdout arg : Str) :
    (trimEnd stdout ≠ [] →
      handle_command (PickerResult.success stdout) s (toL "GETPIN") arg
        = (s, [dLine (trimEnd stdout), okLine], CmdOut.ok))
    ∧ (trimEnd stdout = [] →
      handle_command (PickerResult.success stdout) s (toL "GETPIN") arg
        = (s, [okLine], CmdOut.ok)) := by
  constructor
  · intro h
    rw [hc_getpin]
    simp [run_rofi, h]
  · intro h
    rw [hc_getpin]
    simp [run_rofi, h]

/-- Witness for `getpin_success_dline`: stdout `secret\n` yields the
line `D secret` followed by `OK`. -/
theorem getpin_success_dline_witness :
    trimEnd (toL "secret\n") = toL "secret" ∧
    handle_command (PickerResult.success (toL "secret\n")) sExample (toL "GETPIN") []
      = (sExample, [toL "D secret", okLine], CmdOut.ok) := by
  have h := (getpin_success_dline sExample (toL "secret\n") []).1 (by decide)
  refine ⟨by decide, ?_⟩
  rw [h]
  decide

/-- C5: a request whose `(action, arg)` pair is outside the recognized
vocabulary (per argument shape) falls to the default match arm: the
terminal failure reply `BYE` is emitted, the outcome is fatal (a
non-zero program outcome), and the session processes no further
requests even if more input lines follow. -/
theorem unknown_action_bye_terminates (pick : PickerResult) (s : SState) (action arg : Str)
    (rest : List (Str × PickerResult)) (h : ¬ RecognizedCmd action arg) :
    handle_command pick s action arg = (s, [byeLine], CmdOut.fatal)
    ∧ (¬ ' ' ∈ action →
        runSession s ((action ++ ' ' :: arg, pick) :: rest) = (s, [byeLine], false)) := by
  unfold RecognizedCmd at h
  push_neg at h
  obtain ⟨h1, h2, h3, h4, h5, h6, h7, h8, h9, h10, h11⟩ := h
  have hcmd : handle_command pick s action arg = (s, [byeLine], CmdOut.fatal) := by
    unfold handle_command
    rw [if_neg h1, if_neg (fun hh : _ ∧ _ => h2 hh.1 hh.2),
      if_neg (fun hh : _ ∧ _ => h3 hh.1 hh.2), if_neg (fun hh : _ ∧ _ => h4 hh.1 hh.2),
      if_neg (fun hh : _ ∧ _ => h5 hh.1 hh.2), if_neg h6, if_neg h7, if_neg h8, if_neg h9,
      if_neg (fun hh : _ ∨ _ => hh.elim h10 h11)]
  refine ⟨hcmd, ?_⟩
  intro hsp
  apply runSession_step_fatal
  have hsplit : splitLine (action ++ ' ' :: arg) = (action, arg) := by
    unfold splitLine
    rw [splitOnceChar_append ' ' action arg hsp]
    rfl
  rw [hsplit]
  exact hcmd

/-- Witness for `unknown_action_bye_terminates`: `FOO bar` followed by
a further request line produces only `BYE` and a failed outcome. -/
theorem unknown_action_bye_witness :
    ¬ RecognizedCmd (toL "FOO") (toL "bar") ∧
    runSession sExample
        [(toL "FOO bar", PickerResult.success []), (toL "GETINFO flavor", PickerResult.success [])]
      = (sExample, [byeLine], false) := by
  have h := (unknown_action_bye_terminates (PickerResult.success []) sExample
      (toL "FOO") (toL "bar") [(toL "GETINFO flavor", PickerResult.success [])] (by decide)).2
      (by decide)
  refine ⟨by decide, ?_⟩
  have he : toL "FOO" ++ ' ' :: toL "bar" = toL "FOO bar" := by decide
  rw [← he]
  exact h

/-- C1 counterexample: a `GETPIN` whose picker exits non-zero with
stderr `cancelled\n` (followed by another request line) yields the
`ERR` line with the raw, untrimmed stderr, then `BYE` and a failed
outcome; no `OK` line is emitted and the following request (`GETINFO
flavor`) is never processed — contradicting both the trimmed diagnostic
and the session-continues parts of the claim. -/
theorem getpin_cancel_counterexample :
    runSession sExample c1Lines
      = (sExample, [errCancelLine (toL "cancelled\n"), byeLine], false)
    ∧ okLine ∉ (runSession sExample c1Lines).2.1
    ∧ dLine (toL "keyring") ∉ (runSession sExample c1Lines).2.1
    ∧ errCancelLine (toL "cancelled\n") ≠ errCancelLine (toL "cancelled") := by
  decide

/-- C1 as amended: on picker exit failure, `GETPIN` emits exactly one
`ERR 83886179 Operation cancelled <diag>` line, where `diag` is the raw
captured stderr (the fixed fallback `rofi` when stderr is empty), emits
no `OK` line for that request, then emits `BYE`; the outcome is fatal
and the session terminates without processing any further request. -/
theorem getpin_cancel_err_bye (s : SState) (e arg : Str)
    (rest : List (Str × PickerResult)) :
    handle_command (PickerResult.failure e) s (toL "GETPIN") arg
      = (s, [errCancelLine (if e = [] then toL "rofi" else e), byeLine], CmdOut.fatal)
    ∧ runSession s ((toL "GETPIN", PickerResult.failure e) :: rest)
      = (s, [errCancelLine (if e = [] then toL "rofi" else e), byeLine], false) := by
  have hcmd : ∀ ar : Str, handle_command (PickerResult.failure e) s (toL "GETPIN") ar
      = (s, [errCancelLine (if e = [] then toL "rofi" else e), byeLine], CmdOut.fatal) := by
    intro ar
    rw [hc_getpin]
    simp [run_rofi]
  exact ⟨hcmd arg, runSession_step_fatal _ _ _ _ _ _ (hcmd [])⟩

/-- C4 counterexample: `SETDESC` on the argument `a'b` stores
`a&apos;b` — the apostrophe is entity-escaped by the markup escaping,
while the transformation described by the claim (escaping only `&`,
`<`, `>`, `"`) would leave `a'b` unchanged. -/
theorem setdesc_apostrophe_counterexample :
    mapLookup (toL "-mesg")
        (handle_command (PickerResult.success []) sExample (toL "SETDESC") descCx).1.rofi_args
      = some (some (toL "a&apos;b"))
    ∧ specDescTransform descCx = descCx
    ∧ toL "a&apos;b" ≠ specDescTransform descCx := by
  decide

/-- C4 as amended: `SETDESC s` fully replaces the message key with the
result of percent-decoding `s`, mapping every newline to a carriage
return, and markup-escaping with `glib` semantics (`&`, `<`, `>`, `"`
and also `'` entity-escaped, certain control characters numerically
escaped); all other keys are untouched. -/
theorem setdesc_stores_transform (pick : PickerResult) (s : SState) (a : Str) :
    handle_command pick s (toL "SETDESC") a
      = ({ s with rofi_args := mapInsert (toL "-mesg") (some (descTransform a)) s.rofi_args },
         [okLine], CmdOut.ok)
    ∧ mapLookup (toL "-mesg") (handle_command pick s (toL "SETDESC") a).1.rofi_args
        = some (some (descTransform a))
    ∧ ∀ k, k ≠ toL "-mesg" →
        mapLookup k (handle_command pick s (toL "SETDESC") a).1.rofi_args
          = mapLookup k s.rofi_args := by
  refine ⟨hc_setdesc pick s a, ?_, ?_⟩
  · rw [hc_setdesc]
    exact mapLookup_mapInsert_self _ _ _
  · intro k hk
    rw [hc_setdesc]
    exact mapLookup_mapInsert_ne _ _ _ _ hk

/-- Witness for `setdesc_stores_transform`: `%0A` decodes to a newline
and is remapped to a carriage return, `%22` to an escaped quote, and
an unrelated key is untouched. -/
theorem setdesc_stores_transform_witness :
    descTransform (toL "a%0Ab%22c") = 'a' :: crChar :: 'b' :: toL "&quot;c" ∧
    mapLookup (toL "-display")
        (handle_command (PickerResult.success []) sExample (toL "SETDESC")
          (toL "a%0Ab%22c")).1.rofi_args
      = mapLookup (toL "-display") sExample.rofi_args := by
  refine ⟨by decide, ?_⟩
  exact (setdesc_stores_transform (PickerResult.success []) sExample
    (toL "a%0Ab%22c")).2.2 (toL "-display") (by decide)

/-- C8: recognized `OPTION name=value` requests set exactly the
corresponding environment values (most recent write wins, the rest of
the state untouched), a subsequent `GETINFO ttyinfo` reflects exactly
those values space-joined in order tty-name, tty-type, display, and an
`OPTION` with an unrecognized name is accepted and ignored, replying
success. -/
theorem option_env_roundtrip (pick : PickerResult) (s s1 s2 : SState) (t y d nm val : Str)
    (h1 : (handle_command pick s (toL "OPTION") (toL "ttyname" ++ '=' :: t)).1 = s1)
    (h2 : (handle_command pick s1 (toL "OPTION") (toL "ttytype" ++ '=' :: y)).1 = s2) :
    s2.env = { s.env with gpg_tty := some t, gpg_term := some y }
    ∧ s2.rofi_args = s.rofi_args
    ∧ (s.env.display = some d →
        handle_command pick s2 (toL "GETINFO") (toL "ttyinfo")
          = (s2, [ttyinfoLine t y d, okLine], CmdOut.ok))
    ∧ (nm ≠ toL "ttyname" → nm ≠ toL "ttytype" → nm ≠ toL "lc-ctype" →
        nm ≠ toL "lc-messages" → ¬ '=' ∈ nm →
        handle_command pick s (toL "OPTION") (nm ++ '=' :: val) = (s, [okLine], CmdOut.ok)) := by
  have e1 : (handle_command pick s (toL "OPTION") (toL "ttyname" ++ '=' :: t)).1
      = { s with env := { s.env with gpg_tty := some t } } := by
    rw [hc_option, splitOnceChar_append '=' (toL "ttyname") t (by decide)]
    rfl
  have e2 : s2 = { s with env := { s.env with gpg_tty := some t, gpg_term := some y } } := by
    rw [← h2, ← h1, e1, hc_option, splitOnceChar_append '=' (toL "ttytype") y (by decide)]
    rfl
  subst e2
  refine ⟨rfl, rfl, ?_, ?_⟩
  · intro hd
    simp [hc_getinfo_ttyinfo, hd]
  · intro n1 n2 n3 n4 hne
    rw [hc_option, splitOnceChar_append '=' nm val hne]
    show ({ s with env := setOptionVar s.env nm val }, _, _) = _
    unfold setOptionVar
    rw [if_neg n1, if_neg n2, if_neg n3, if_neg n4]

/-- Witness for `option_env_roundtrip`: after `OPTION
ttyname=/dev/pts/3` and `OPTION ttytype=vt100`, `GETINFO ttyinfo`
reports `D /dev/pts/3 vt100 :0`; `OPTION grab=1` is accepted and
ignored. -/
theorem option_env_roundtrip_witness :
    handle_command (PickerResult.success []) s2Witness (toL "GETINFO") (toL "ttyinfo")
      = (s2Witness, [toL "D /dev/pts/3 vt100 :0", okLine], CmdOut.ok)
    ∧ handle_command (PickerResult.success []) sExample (toL "OPTION") (toL "grab" ++ '=' :: toL "1")
      = (sExample, [okLine], CmdOut.ok) := by
  have h := option_env_roundtrip (PickerResult.success []) sExample s1Witness s2Witness
      (toL "/dev/pts/3") (toL "vt100") (toL ":0") (toL "grab") (toL "1") (by decide) (by decide)
  constructor
  · have h3 := h.2.2.1 (by decide)
    rw [h3]
    decide
  · exact h.2.2.2 (by decide) (by decide) (by decide) (by decide) (by decide)

/-- C9: flattening the argument map emits, for each key with a present
value, the two tokens key then value adjacently, and for each key with
an absent value the single token key; the total token count is one per
entry plus one per present value (each key contributes exactly once). -/
theorem flatArgs_tokens (m : RofiMap) (k v : Str) :
    ((k, some v) ∈ m → ContigIn [k, v] (flatArgs m))
    ∧ ((k, none) ∈ m → ContigIn [k] (flatArgs m))
    ∧ (flatArgs m).length = m.length + (m.filterMap Prod.snd).length := by
  induction m with
  | nil => exact ⟨by simp, by simp, by simp [flatArgs]⟩
  | cons e rest ih =>
    have hcons : flatArgs (e :: rest) = entryTokens e ++ flatArgs rest := rfl
    refine ⟨?_, ?_, ?_⟩
    · intro hm
      rcases List.mem_cons.mp hm with he | hm'
      · exact ⟨[], flatArgs rest, by rw [hcons, ← he]; rfl⟩
      · obtain ⟨u, w, hw⟩ := ih.1 hm'
        exact ⟨entryTokens e ++ u, w, by rw [hcons, hw, List.append_assoc]⟩
    · intro hm
      rcases List.mem_cons.mp hm with he | hm'
      · exact ⟨[], flatArgs rest, by rw [hcons, ← he]; rfl⟩
      · obtain ⟨u, w, hw⟩ := ih.2.1 hm'
        exact ⟨entryTokens e ++ u, w, by rw [hcons, hw, List.append_assoc]⟩
    · rw [hcons]
      obtain ⟨k', v'⟩ := e
      cases v' <;> simp [entryTokens, ih.2.2] <;> omega

/-- Witness for `flatArgs_tokens` on the base argument map. -/
theorem flatArgs_tokens_witness :
    ContigIn [toL "-display", toL ":0"] (flatArgs (initRofiArgs (toL ":0")))
    ∧ ContigIn [toL "-dmenu"] (flatArgs (initRofiArgs (toL ":0")))
    ∧ (flatArgs (initRofiArgs (toL ":0"))).length
        = (initRofiArgs (toL ":0")).length
          + ((initRofiArgs (toL ":0")).filterMap Prod.snd).length :=
  ⟨(flatArgs_tokens (initRofiArgs (toL ":0")) (toL "-display") (toL ":0")).1 (by decide),
   (flatArgs_tokens (initRofiArgs (toL ":0")) (toL "-dmenu") []).2.1 (by decide),
   (flatArgs_tokens (initRofiArgs (toL ":0")) [] []).2.2⟩

/-- C2: for a message value that is one prior error stacked on a
description `D` (value `E ++ errSep ++ D`, with `errSep` occurring only
at the stacking position — `uniqueAnchor D`) or a plain description `D`,
`SETERROR Z` replaces the message with `Z ++ errSep ++ D`; in
particular `SETERROR X` then `SETERROR Z` after a description `D`
yields `Z ++ errSep ++ D`, never `Z ++ errSep ++ X ++ errSep ++ D`. -/
theorem seterror_stacks_on_description (pick : PickerResult) (s : SState)
    (E D X Z : Str) (hA : uniqueAnchor D = true) :
    (mapLookup (toL "-mesg") s.rofi_args = some (some (E ++ (errSep ++ D))) →
      handle_command pick s (toL "SETERROR") Z
        = ({ s with rofi_args := (mapInsert (toL "-mesg")
              (some (Z ++ errSep ++ D)) s.rofi_args) }, [okLine], CmdOut.ok))
    ∧ (mapLookup (toL "-mesg") s.rofi_args = some (some D) →
      handle_command pick s (toL "SETERROR") Z
        = ({ s with rofi_args := (mapInsert (toL "-mesg")
              (some (Z ++ errSep ++ D)) s.rofi_args) }, [okLine], CmdOut.ok))
    ∧ (mapLookup (toL "-mesg") s.rofi_args = some (some D) →
      mapLookup (toL "-mesg")
          (handle_command pick
            (handle_command pick s (toL "SETERROR") X).1
            (toL "SETERROR") Z).1.rofi_args
        = some (some (Z ++ errSep ++ D))) := by
  have aux1 : ∀ (s' : SState) (E' Z' : Str),
      mapLookup (toL "-mesg") s'.rofi_args = some (some (E' ++ (errSep ++ D))) →
      handle_command pick s' (toL "SETERROR") Z'
        = ({ s' with rofi_args := (mapInsert (toL "-mesg")
              (some (Z' ++ errSep ++ D)) s'.rofi_args) }, [okLine], CmdOut.ok) := by
    intro s' E' Z' hm'
    rw [hc_seterror, hm']
    show ({ s' with rofi_args := (mapInsert (toL "-mesg")
        (some (Z' ++ errSep ++ ((rsplitOnce errSep (E' ++ (errSep ++ D))).getD
          ([], E' ++ (errSep ++ D))).2)) s'.rofi_args) }, [okLine], CmdOut.ok) = _
    simp [uniqueAnchor_rsplit_stack D E' hA]
  have aux2 : ∀ (s' : SState) (Z' : Str),
      mapLookup (toL "-mesg") s'.rofi_args = some (some D) →
      handle_command pick s' (toL "SETERROR") Z'
        = ({ s' with rofi_args := (mapInsert (toL "-mesg")
              (some (Z' ++ errSep ++ D)) s'.rofi_args) }, [okLine], CmdOut.ok) := by
    intro s' Z' hm'
    rw [hc_seterror, hm']
    show ({ s' with rofi_args := (mapInsert (toL "-mesg")
        (some (Z' ++ errSep ++ ((rsplitOnce errSep D).getD ([], D)).2)) s'.rofi_args) },
        [okLine], CmdOut.ok) = _
    simp [uniqueAnchor_rsplit_none D hA]
  refine ⟨aux1 s E Z, aux2 s Z, ?_⟩
  intro hm2
  rw [aux2 s X hm2]
  have hl : mapLookup (toL "-mesg")
      (mapInsert (toL "-mesg") (some (X ++ errSep ++ D)) s.rofi_args)
      = some (some (X ++ (errSep ++ D))) := by
    rw [← List.append_assoc]
    exact mapLookup_mapInsert_self _ _ _
  have h2 := aux1
    ({ s with rofi_args := (mapInsert (toL "-mesg") (some (X ++ errSep ++ D)) s.rofi_args) })
    X Z hl
  show mapLookup (toL "-mesg")
      (handle_command pick
        { s with rofi_args := (mapInsert (toL "-mesg") (some (X ++ errSep ++ D)) s.rofi_args) }
        (toL "SETERROR") Z).1.rofi_args
    = some (some (Z ++ errSep ++ D))
  rw [h2]
  exact mapLookup_mapInsert_self _ _ _

/-- Witness for `seterror_stacks_on_description`: after `SETDESC`-style
message `Y`, `SETERROR X` then `SETERROR Z` stores `Z ++ errSep ++ Y`. -/
theorem seterror_stacks_witness :
    uniqueAnchor (toL "Y") = true ∧
    mapLookup (toL "-mesg")
        (handle_command (PickerResult.success [])
          (handle_command (PickerResult.success []) sDescY (toL "SETERROR") (toL "X")).1
          (toL "SETERROR") (toL "Z")).1.rofi_args
      = some (some (toL "Z" ++ errSep ++ toL "Y")) := by
  refine ⟨by decide, ?_⟩
  exact (seterror_stacks_on_description (PickerResult.success []) sDescY [] (toL "Y")
    (toL "X") (toL "Z") (by decide)).2.2 (by decide)
